import Mathlib

/-!
Shallow embedding of the `noaa-alerts-pushover` ingestion pipeline
(`fetch.py` together with the data model in `models.py`).

The Python code fetches an Atom/CAP feed, parses each entry, inserts an
`Alert` row keyed by a hash of the entry's id unless one with that id
already exists, then queries the rows created in the current run and
matches their UGC/FIPS geocodes against a configured list of counties.

Machine-level aspects that the claims need are modelled exactly:
Python's `str.split(sep)` (which keeps empty fields), `str.replace`
(all non-overlapping occurrences), `s[-5:]`, `','.join`, and the
truthiness test `if s:` on strings.  The SHA-224 identity digest is
an opaque parameter `h : String → String`: every theorem holds for an
arbitrary digest function, with injectivity on the concrete inputs
assumed where a claim needs distinct identities.
-/

namespace Noaa

/-- Python `s.split(sep)` on a character list: splits on every occurrence
of `sep`, keeping empty fields, and yields `[[]]` on the empty string. -/
def splitCharsOn (sep : Char) : List Char → List (List Char)
  | [] => [[]]
  | c :: rest =>
    match splitCharsOn sep rest with
    | [] => [[]]
    | grp :: grps => if c = sep then [] :: grp :: grps else (c :: grp) :: grps

/-- Python `s.split(sep)` for a single-character separator. -/
def pySplitChar (sep : Char) (s : String) : List String :=
  (splitCharsOn sep s.data).map (fun cs => String.mk cs)

/-- Split on a character predicate, keeping empty fields. -/
def splitCharsOnP (p : Char → Bool) : List Char → List (List Char)
  | [] => [[]]
  | c :: rest =>
    match splitCharsOnP p rest with
    | [] => [[]]
    | grp :: grps => if p c then [] :: grp :: grps else (c :: grp) :: grps

/-- A Python `str.split()` whitespace character (space, tab, LF, CR, VT, FF). -/
def isPyWhitespace (c : Char) : Bool :=
  c = ' ' || c = '\t' || c = '\n' || c = '\r' || c = '\x0b' || c = '\x0c'

/-- Python argument-less `s.split()`: split on runs of whitespace and drop
empty fields.  This is the reading of the spec's words "whitespace-separated
split"; the source itself uses `split(' ')` (`pySplitChar ' '`). -/
def specWhitespaceSplit (s : String) : List String :=
  ((splitCharsOnP isPyWhitespace s.data).map (fun cs => String.mk cs)).filter
    (fun piece => piece ≠ "")

/-- Python `s[-n:]`: the last `n` characters (all of `s` when it is shorter). -/
def pyLastChars (n : Nat) (s : String) : String :=
  String.mk (s.data.drop (s.data.length - n))

/-- Python `pat in s` on character lists (contiguous-substring test). -/
def containsChars (pat : List Char) : List Char → Bool
  | [] => pat.isEmpty
  | c :: rest => pat.isPrefixOf (c :: rest) || containsChars pat rest

/-- Python `pat in s` for strings. -/
def strContains (s pat : String) : Bool :=
  containsChars pat.data s.data

/-- ASCII upper-casing of a string, as Python `str.upper()` acts on the
ASCII feed text. -/
def upperStr (s : String) : String :=
  String.mk (s.data.map Char.toUpper)

/-- Helper for `replaceChars`: `fuel` bounds the recursion (the caller
passes the length of the subject, which suffices for a non-empty pattern). -/
def replaceAux (pat repl : List Char) : Nat → List Char → List Char
  | _, [] => []
  | 0, s => s
  | fuel + 1, c :: rest =>
    if pat.isPrefixOf (c :: rest) then
      repl ++ replaceAux pat repl fuel ((c :: rest).drop pat.length)
    else
      c :: replaceAux pat repl fuel rest

/-- Python `s.replace(pat, repl)` for a non-empty `pat` (the source only
ever replaces the literal `"issued"`): all non-overlapping occurrences,
scanned left to right. -/
def replaceStr (s pat repl : String) : String :=
  if pat.data.isEmpty then s
  else String.mk (replaceAux pat.data repl.data s.data.length s.data)

/-! ### Data model (`models.py` `Alert`, plus the fields `fetch.py` passes
to `Alert.create`) -/

/-- One row of the `Alert` table, carrying the values `Parser.fetch` passes
to `Alert.create` (`details` and `api_url` are set at creation time in
`fetch.py`). -/
structure Alert where
  alert_id : String
  title : String
  event : String
  details : String
  expires : String
  expires_utc_ts : Int
  url : String
  api_url : String
  fips_codes : String
  ugc_codes : String
  created : Nat
deriving DecidableEq

/-- One watched region from `counties.json`: name, state, FIPS code, UGC code. -/
structure County where
  name : String
  state : String
  fips : String
  ugc : String
deriving DecidableEq

/-- One `(valueName, value)` pair of a CAP `geocode` block.  `value` is the
text of the element following the `valueName` element; `none` models both a
missing sibling element and an element whose text node is absent. -/
structure GeoPair where
  valueName : String
  value : Option String
deriving DecidableEq

/-- One Atom entry of the feed, with the fields `Parser.fetch` reads.
`id` and `expires` are optional because the code dereferences them without
a guard; `expires` carries the pair `arrow` derives from the timestamp text
(ISO form and UTC epoch seconds). -/
structure Entry where
  id : Option String
  title : String
  event : String
  expires : Option (String × Int)
  link : String
  summary : String
  geocode : Option (List GeoPair)
deriving DecidableEq

/-! ### Geocode parsing (`fetch.py` lines 180–195) -/

/-- The loop over the geocode block's `valueName` elements: a `FIPS6` pair
with a present value replaces the FIPS list with `value.split(' ')`, a
`UGC` pair likewise replaces the UGC list, everything else is skipped. -/
def geoLoop : List GeoPair → List String → List String → List String × List String
  | [], fipsAcc, ugcAcc => (fipsAcc, ugcAcc)
  | p :: rest, fipsAcc, ugcAcc =>
    if p.valueName == "FIPS6" then
      match p.value with
      | some t => geoLoop rest (pySplitChar ' ' t) ugcAcc
      | none => geoLoop rest fipsAcc ugcAcc
    else if p.valueName == "UGC" then
      match p.value with
      | some t => geoLoop rest fipsAcc (pySplitChar ' ' t)
      | none => geoLoop rest fipsAcc ugcAcc
    else
      geoLoop rest fipsAcc ugcAcc

/-- `(fips_list, ugc_list)` extracted from an entry's geocode block; a
missing block yields two empty lists. -/
def parseGeocode : Option (List GeoPair) → List String × List String
  | none => ([], [])
  | some pairs => geoLoop pairs [] []

/-- The value of the last pair named `name` that carries a present value
(pairs with an absent value do not reset earlier ones). -/
def lastValueFor (name : String) : List GeoPair → Option String
  | [] => none
  | p :: rest =>
    match lastValueFor name rest with
    | some t => some t
    | none => if p.valueName == name then p.value else none

/-! ### Keyword extraction (`fetch.py` lines 197–208) -/

/-- The fixed keyword vocabulary scanned inside weather statements. -/
def keywordVocab : List String :=
  ["Thunderstorm", "Strong Storm", "Wind", "Rain", "Hail", "Tornado", "Flood"]

/-- The two event types whose summaries are scanned for keywords. -/
def statementEvents : List String :=
  ["Severe Weather Statement", "Special Weather Statement"]

/-- `sub_events`: for a statement event, every vocabulary term whose
upper-case form occurs in the upper-cased summary, appended in vocabulary
order; empty for every other event type. -/
def subEvents (event summary : String) : List String :=
  if statementEvents.contains event then
    let summaryU := upperStr summary
    keywordVocab.foldl
      (fun acc item => if strContains summaryU (upperStr item) then acc ++ [item] else acc)
      []
  else []

/-! ### Ingestion (`fetch.py` lines 153–235) -/

/-- The `Alert.create` call of `Parser.fetch` for one entry: `idText` is the
entry's id text (already known present), `iso`/`utcTs` the parsed expiry. -/
def entryToAlert (h : String → String) (run_timestamp : Nat) (e : Entry)
    (idText : String) (iso : String) (utcTs : Int) : Alert :=
  let codes := parseGeocode e.geocode
  { alert_id := h idText
    title := e.title
    event := e.event
    details := String.intercalate ", " (subEvents e.event e.summary)
    expires := iso
    expires_utc_ts := utcTs
    url := e.link
    api_url := idText
    fips_codes := String.intercalate "," codes.1
    ugc_codes := String.intercalate "," codes.2
    created := run_timestamp }

/-- Counts and repository state produced by one `Parser.fetch` pass.
`error` is the exception that aborted the pass (Python raises an
`AttributeError` when a required element is missing), `none` when the
pass ran to completion; rows inserted before an abort stay committed. -/
structure FetchOutcome where
  total : Nat
  insert_count : Nat
  existing_count : Nat
  repo : List Alert
  error : Option String
deriving DecidableEq

/-- `Parser.fetch(run_timestamp)` over a parsed feed: for each entry in
order, count it, hash its id, and either count it as existing (a row with
that `alert_id` is already present; nothing is mutated) or append a new
row tagged `created := run_timestamp`.  An entry with a missing `id` or
`expires` element raises, aborting the pass at that entry. -/
def fetch (h : String → String) (run_timestamp : Nat) :
    List Entry → List Alert → FetchOutcome
  | [], repo => { total := 0, insert_count := 0, existing_count := 0, repo := repo, error := none }
  | e :: rest, repo =>
    match e.id, e.expires with
    | some idText, some exp =>
      let aid := h idText
      match repo.find? (fun a => a.alert_id == aid) with
      | some _ =>
        let o := fetch h run_timestamp rest repo
        { o with total := o.total + 1, existing_count := o.existing_count + 1 }
      | none =>
        let o := fetch h run_timestamp rest
          (repo ++ [entryToAlert h run_timestamp e idText exp.1 exp.2])
        { o with total := o.total + 1, insert_count := o.insert_count + 1 }
    | _, _ =>
      { total := 1, insert_count := 0, existing_count := 0, repo := repo,
        error := some "AttributeError: required entry field missing" }

/-! ### Run-scoped query and matching (`fetch.py` lines 81–125) -/

/-- `Alert.select().where(Alert.created == created_ts)`. -/
def recordsForRun (created_ts : Nat) (repo : List Alert) : List Alert :=
  repo.filter (fun a => a.created == created_ts)

/-- `alert_record.ugc_codes.split(',')` guarded by Python truthiness:
an empty stored string yields no codes. -/
def alertUgcCodes (a : Alert) : List String :=
  if a.ugc_codes == "" then [] else pySplitChar ',' a.ugc_codes

/-- `alert_record.fips_codes.split(',')` guarded by Python truthiness. -/
def alertFipsCodes (a : Alert) : List String :=
  if a.fips_codes == "" then [] else pySplitChar ',' a.fips_codes

/-- First-occurrence deduplication with an accumulator of already-seen
elements. -/
def dedupAux (seen : List String) : List String → List String
  | [] => []
  | c :: rest =>
    if seen.contains c then dedupAux seen rest
    else c :: dedupAux (c :: seen) rest

/-- `set(codes).intersection(watch)`, determinized to first-occurrence
order of `codes` (the Python set's iteration order is unspecified; the
claims are stated relative to this scan order). -/
def interList (codes watch : List String) : List String :=
  dedupAux [] (codes.filter (fun c => watch.contains c))

/-- The `for code in match: matched_counties = [county for county in
counties if county.code == code]` loop: each iteration replaces the
accumulator with the counties carrying that code, so only the last code
scanned survives. -/
def scanCodes (f : County → String) (counties : List County) :
    List String → List County → List County
  | [], acc => acc
  | code :: rest, _ => scanCodes f counties rest (counties.filter (fun c => f c == code))

/-- Both scanning loops of `check_new_alerts`: the UGC scan starting from
`[]`, then the FIPS scan starting from the UGC result. -/
def matchCounties (counties : List County) (ugcMatch fipsMatch : List String) :
    List County :=
  scanCodes County.fips counties fipsMatch (scanCodes County.ugc counties ugcMatch [])

/-- A matched alert: the record plus the `county`/`state` attributes
`check_new_alerts` sets on it from `matched_counties[0]`. -/
structure MatchedAlert where
  alert : Alert
  county : String
  state : String
deriving DecidableEq

/-- The body of `check_new_alerts` for one record: intersect its code
lists with the watch lists, run both scans, and keep the record enriched
with the first matched county when any survive. -/
def matchOne (counties : List County) (ugc_watch fips_watch : List String)
    (a : Alert) : Option MatchedAlert :=
  let ugcMatch := interList (alertUgcCodes a) ugc_watch
  let fipsMatch := interList (alertFipsCodes a) fips_watch
  match matchCounties counties ugcMatch fipsMatch with
  | [] => none
  | c :: _ => some { alert := a, county := c.name, state := c.state }

/-- `Parser.check_new_alerts(created_ts)`: match every record created in
this run, keeping those that resolved to a county. -/
def check_new_alerts (counties : List County) (ugc_watch fips_watch : List String)
    (created_ts : Nat) (repo : List Alert) : List MatchedAlert :=
  (recordsForRun created_ts repo).filterMap (matchOne counties ugc_watch fips_watch)

/-! ### Notification formatting (`fetch.py` lines 38–60) and dispatch
eligibility (line 323) -/

/-- `Parser.create_alert_title`: `'%s (%s) Weather Alert' % (county, state)`. -/
def create_alert_title (m : MatchedAlert) : String :=
  m.county ++ " (" ++ m.state ++ ") Weather Alert"

/-- `Parser.create_alert_message`: when `details` is truthy the word
`issued` in the title is annotated with it, and the last five characters
of the identity are appended in parentheses. -/
def create_alert_message (m : MatchedAlert) : String :=
  let title :=
    if m.alert.details ≠ "" then
      replaceStr m.alert.title "issued" ("(" ++ m.alert.details ++ ") issued")
    else m.alert.title
  title ++ " (" ++ pyLastChars 5 m.alert.alert_id ++ ")"

/-- `alert.event not in ignored_events`. -/
def dispatchEligible (ignored_events : List String) (m : MatchedAlert) : Bool :=
  !(ignored_events.contains m.alert.event)

/-! ### Purge / prune (`fetch.py` lines 304–309) -/

/-- `Alert.delete().where(Alert.expires_utc_ts < cutoff).execute()`:
the surviving rows and the count deleted. -/
def purgeExpiredCutoff (cutoff : Int) (repo : List Alert) : List Alert × Nat :=
  (repo.filter (fun a => !(a.expires_utc_ts < cutoff)),
   (repo.filter (fun a => a.expires_utc_ts < cutoff)).length)

/-- The non-purge branch of the main script: the cutoff is
`arrow.utcnow().replace(days=-1).timestamp`, i.e. one day (86400 s)
before the current time. -/
def prunePass (now : Int) (repo : List Alert) : List Alert × Nat :=
  purgeExpiredCutoff (now - 86400) repo

/-- The purge-or-prune prelude of the main script: `--purge` deletes
every row, otherwise rows expired for more than a day are deleted. -/
def mainPrelude (purgeFlag : Bool) (now : Int) (repo : List Alert) : List Alert :=
  if purgeFlag then [] else (prunePass now repo).1

/-- A well-formed sample entry used to instantiate hypotheses at concrete
inputs. -/
def sampleEntry : Entry :=
  { id := some "https://alerts.weather.gov/cap/sample.1"
    title := "Tornado Warning issued May 31 for Arapahoe County"
    event := "Tornado Warning"
    expires := some ("2015-06-01T00:00:00+00:00", 1433116800)
    link := "http://alerts.weather.gov/cap/sample.1.html"
    summary := "TORNADO WARNING ISSUED FOR AREA"
    geocode := some [⟨"UGC", some "COZ039"⟩, ⟨"FIPS6", some "008005"⟩] }

/-- The configured Arapahoe county of the spec's example scenario. -/
def arapahoe : County :=
  { name := "Arapahoe", state := "CO", fips := "008005", ugc := "COZ039" }

/-- A stored alert row carrying the UGC code `COZ039` and no FIPS codes. -/
def wAlertUgc : Alert :=
  { alert_id := "deadbeef", title := "Tornado Warning issued for Arapahoe"
    event := "Tornado Warning", details := "", expires := "2015-06-01T00:00:00+00:00"
    expires_utc_ts := 1433116800, url := "http://example.org/a.html"
    api_url := "http://example.org/a", fips_codes := "", ugc_codes := "COZ039"
    created := 1 }

/-- Two counties sharing the FIPS code `008001`. -/
def countyA : County := { name := "Alpha", state := "AA", fips := "008001", ugc := "AAZ001" }

/-- Second county with the same FIPS code as `countyA`. -/
def countyB : County := { name := "Beta", state := "BB", fips := "008001", ugc := "BBZ001" }

/-- A stored alert row carrying the FIPS code `008001` and no UGC codes. -/
def wAlertFips : Alert :=
  { alert_id := "cafebabe", title := "Flood Warning issued"
    event := "Flood Warning", details := "", expires := "2015-06-01T00:00:00+00:00"
    expires_utc_ts := 1433116800, url := "http://example.org/b.html"
    api_url := "http://example.org/b", fips_codes := "008001", ugc_codes := ""
    created := 1 }

/-- A record whose expiry epoch (50000) lies in the past of the current
time used in the counterexample (100000), but within the one-day grace
window the code actually applies. -/
def staleAlert : Alert :=
  { alert_id := "stalestale", title := "Stale", event := "Flood Warning", details := ""
    expires := "1970-01-01T13:53:20+00:00", expires_utc_ts := 50000
    url := "http://example.org/s.html", api_url := "http://example.org/s"
    fips_codes := "", ugc_codes := "", created := 0 }

/-- An entry lacking its required Atom id element. -/
def malformedEntry : Entry :=
  { id := none, title := "No id", event := "Special Weather Statement"
    expires := some ("2015-06-01T00:00:00+00:00", 1433116800)
    link := "http://example.org/m.html", summary := "whatever", geocode := none }

/-- A statement-category entry whose summary carries a keyword. -/
def stmtEntry : Entry :=
  { id := some "https://alerts.weather.gov/cap/stmt.1"
    title := "Special Weather Statement issued May 31"
    event := "Special Weather Statement"
    expires := some ("2015-06-01T00:00:00+00:00", 1433116800)
    link := "http://example.org/stmt.html"
    summary := "TORNADO WARNING ISSUED FOR AREA", geocode := none }

/-- Id text of the matching scenario entry. -/
def scenarioId1 : String := "https://alerts.weather.gov/cap/co.1"

/-- Id text of the non-matching scenario entry. -/
def scenarioId2 : String := "https://alerts.weather.gov/cap/ne.2"

/-- Scenario entry whose UGC code `COZ039` matches the Arapahoe region. -/
def scenarioEntryMatch : Entry :=
  { id := some scenarioId1
    title := "Tornado Warning issued for Arapahoe County"
    event := "Tornado Warning"
    expires := some ("2015-06-01T00:00:00+00:00", 1433116800)
    link := "http://alerts.weather.gov/co.1.html"
    summary := "A tornado warning is in effect"
    geocode := some [{ valueName := "UGC", value := some "COZ039" }] }

/-- Scenario entry matching no configured codes. -/
def scenarioEntryOther : Entry :=
  { id := some scenarioId2
    title := "Flood Warning issued for Elsewhere"
    event := "Flood Warning"
    expires := some ("2015-06-02T00:00:00+00:00", 1433203200)
    link := "http://alerts.weather.gov/ne.2.html"
    summary := "Flooding expected"
    geocode := some [{ valueName := "UGC", value := some "NEZ001" }] }

/-- The two-entry scenario feed. -/
def scenarioFeed : List Entry := [scenarioEntryMatch, scenarioEntryOther]


/-! ### Lemmas about `fetch` -/

theorem find?_append_some {p : Alert → Bool} {l1 : List Alert} {x : Alert}
    (hf : l1.find? p = some x) (l2 : List Alert) : (l1 ++ l2).find? p = some x := by
  rw [List.find?_append, hf]
  rfl

theorem find?_append_none {p : Alert → Bool} {l1 : List Alert}
    (hf : l1.find? p = none) (l2 : List Alert) : (l1 ++ l2).find? p = l2.find? p := by
  rw [List.find?_append, hf]
  simp

/-- A fetch pass only appends to the repository, and every appended row is
tagged with this pass's run marker. -/
theorem fetch_repo_append (h : String → String) (ts : Nat) :
    ∀ (entries : List Entry) (repo : List Alert),
      ∃ s, (fetch h ts entries repo).repo = repo ++ s ∧ ∀ a ∈ s, a.created = ts
  | [], repo => ⟨[], by simp [fetch], by simp⟩
  | e :: rest, repo => by
    cases hid : e.id with
    | none => exact ⟨[], by simp [fetch, hid], by simp⟩
    | some idText =>
      cases hexp : e.expires with
      | none => exact ⟨[], by simp [fetch, hid, hexp], by simp⟩
      | some exp =>
        cases hfind : repo.find? (fun a => a.alert_id == h idText) with
        | some x =>
          obtain ⟨s, hs, hc⟩ := fetch_repo_append h ts rest repo
          exact ⟨s, by simp [fetch, hid, hexp, hfind, hs], hc⟩
        | none =>
          obtain ⟨s, hs, hc⟩ :=
            fetch_repo_append h ts rest (repo ++ [entryToAlert h ts e idText exp.1 exp.2])
          refine ⟨entryToAlert h ts e idText exp.1 exp.2 :: s, ?_, ?_⟩
          · simp [fetch, hid, hexp, hfind, hs]
          · intro a ha
            rcases List.mem_cons.mp ha with rfl | ha
            · simp [entryToAlert]
            · exact hc a ha

/-- Re-running a pass over the same feed against the repository it left
behind: nothing is inserted, the repository is unchanged, the same number
of entries is counted, every previously inserted or existing entry is
counted as existing, and the pass aborts at exactly the same point. -/
theorem fetch_refetch (h : String → String) (t1 t2 : Nat)
    (entries : List Entry) (repo : List Alert) :
    (fetch h t2 entries (fetch h t1 entries repo).repo).insert_count = 0 ∧
    (fetch h t2 entries (fetch h t1 entries repo).repo).repo
      = (fetch h t1 entries repo).repo ∧
    (fetch h t2 entries (fetch h t1 entries repo).repo).total
      = (fetch h t1 entries repo).total ∧
    (fetch h t2 entries (fetch h t1 entries repo).repo).existing_count
      = (fetch h t1 entries repo).insert_count + (fetch h t1 entries repo).existing_count ∧
    (fetch h t2 entries (fetch h t1 entries repo).repo).error
      = (fetch h t1 entries repo).error := by
  induction entries generalizing repo with
  | nil => simp [fetch]
  | cons e rest ih =>
    cases hid : e.id with
    | none => simp [fetch, hid]
    | some idText =>
      cases hexp : e.expires with
      | none => simp [fetch, hid, hexp]
      | some exp =>
        cases hfind : repo.find? (fun a => a.alert_id == h idText) with
        | some x =>
          obtain ⟨s, hs, -⟩ := fetch_repo_append h t1 rest repo
          have hfind2 : (fetch h t1 rest repo).repo.find? (fun a => a.alert_id == h idText)
              = some x := by
            rw [hs]
            exact find?_append_some hfind s
          have := ih repo
          simp only [fetch, hid, hexp, hfind, hfind2] at this ⊢
          obtain ⟨a1, a2, a3, a4, a5⟩ := this
          exact ⟨a1, a2, by omega, by omega, a5⟩
        | none =>
          set A := entryToAlert h t1 e idText exp.1 exp.2 with hA
          obtain ⟨s, hs, -⟩ := fetch_repo_append h t1 rest (repo ++ [A])
          have hself : (A.alert_id == h idText) = true := by
            simp [hA, entryToAlert]
          have hfind2 : (fetch h t1 rest (repo ++ [A])).repo.find?
              (fun a => a.alert_id == h idText) = some A := by
            rw [hs, List.append_assoc]
            rw [find?_append_none hfind ([A] ++ s)]
            simp [List.find?_cons, hself]
          have := ih (repo ++ [A])
          simp only [fetch, hid, hexp, hfind, hfind2, ← hA] at this ⊢
          obtain ⟨a1, a2, a3, a4, a5⟩ := this
          exact ⟨a1, a2, by omega, by omega, a5⟩

/-- Claim C1: ingestion is idempotent against an unchanged feed.  A second
pass over the same entry list inserts zero records, leaves the repository
exactly as the first pass left it, and counts every entry whose identity
is already present as already-existing (the first pass's inserted and
existing entries together). -/
theorem c1_reingestion_idempotent (h : String → String) (t1 t2 : Nat)
    (entries : List Entry) (repo : List Alert) :
    (fetch h t2 entries (fetch h t1 entries repo).repo).insert_count = 0 ∧
    (fetch h t2 entries (fetch h t1 entries repo).repo).repo
      = (fetch h t1 entries repo).repo ∧
    (fetch h t2 entries (fetch h t1 entries repo).repo).existing_count
      = (fetch h t1 entries repo).insert_count + (fetch h t1 entries repo).existing_count := by
  obtain ⟨h1, h2, -, h4, -⟩ := fetch_refetch h t1 t2 entries repo
  exact ⟨h1, h2, h4⟩

/-- Witness for C1 at a concrete input: re-ingesting a one-entry feed
right after a first pass changes nothing. -/
theorem c1_reingestion_idempotent_witness :
    (fetch (fun s => s) 2 [sampleEntry]
        (fetch (fun s => s) 1 [sampleEntry] []).repo).insert_count = 0 ∧
    (fetch (fun s => s) 2 [sampleEntry]
        (fetch (fun s => s) 1 [sampleEntry] []).repo).repo
      = (fetch (fun s => s) 1 [sampleEntry] []).repo ∧
    (fetch (fun s => s) 2 [sampleEntry]
        (fetch (fun s => s) 1 [sampleEntry] []).repo).existing_count
      = (fetch (fun s => s) 1 [sampleEntry] []).insert_count
        + (fetch (fun s => s) 1 [sampleEntry] []).existing_count :=
  c1_reingestion_idempotent (fun s => s) 1 2 [sampleEntry] []

/-- Claim C2: run-scoped novelty.  When the run marker `K` is fresh for the
existing repository, a pass with marker `K` appends exactly the records it
creates, each tagged `K`; the run-scoped query for `K` returns exactly
those records, and the query for any other marker `J` returns exactly what
it returned before the pass. -/
theorem c2_run_scoped_novelty (h : String → String) (K J : Nat)
    (entries : List Entry) (repo : List Alert) (hKJ : J ≠ K)
    (hfresh : ∀ a ∈ repo, a.created ≠ K) :
    ∃ s, (fetch h K entries repo).repo = repo ++ s ∧
      (∀ a ∈ s, a.created = K) ∧
      recordsForRun K (fetch h K entries repo).repo = s ∧
      recordsForRun J (fetch h K entries repo).repo = recordsForRun J repo := by
  obtain ⟨s, hs, hc⟩ := fetch_repo_append h K entries repo
  refine ⟨s, hs, hc, ?_, ?_⟩
  · rw [hs]
    unfold recordsForRun
    rw [List.filter_append]
    have hrepo : repo.filter (fun a => a.created == K) = [] := by
      rw [List.filter_eq_nil_iff]
      intro a ha
      simpa using hfresh a ha
    have hsfull : s.filter (fun a => a.created == K) = s := by
      rw [List.filter_eq_self]
      intro a ha
      simpa using hc a ha
    rw [hrepo, hsfull]
    rfl
  · rw [hs]
    unfold recordsForRun
    rw [List.filter_append]
    have hsnone : s.filter (fun a => a.created == J) = [] := by
      rw [List.filter_eq_nil_iff]
      intro a ha
      have := hc a ha
      simp [this]
      exact fun hEq => hKJ (hEq ▸ rfl)
    rw [hsnone, List.append_nil]

/-- Witness for C2 at a concrete input: one well-formed entry ingested with
marker 1 into an empty repository, queried for markers 1 and 2. -/
theorem c2_run_scoped_novelty_witness :
    ∃ s, (fetch (fun s => s) 1 [sampleEntry] []).repo = [] ++ s ∧
      (∀ a ∈ s, a.created = 1) ∧
      recordsForRun 1 (fetch (fun s => s) 1 [sampleEntry] []).repo = s ∧
      recordsForRun 2 (fetch (fun s => s) 1 [sampleEntry] []).repo
        = recordsForRun 2 [] :=
  c2_run_scoped_novelty (fun s => s) 1 2 [sampleEntry] [] (by decide) (by simp)

/-! ### Lemmas about the matcher -/

theorem find?_eq_head?_filter (p : County → Bool) (l : List County) :
    l.find? p = (l.filter p).head? := by
  induction l with
  | nil => rfl
  | cons x xs ih =>
    by_cases hp : p x
    · rw [List.find?_cons_of_pos _ hp, List.filter_cons_of_pos hp]
      rfl
    · rw [List.find?_cons_of_neg _ hp, List.filter_cons_of_neg hp, ih]

/-- The replace-each-iteration scan keeps the filter for the last code
scanned, or the initial accumulator when there is no code. -/
theorem scanCodes_eq (f : County → String) (cs : List County) :
    ∀ (codes : List String) (acc : List County),
      scanCodes f cs codes acc =
        codes.getLast?.elim acc (fun code => cs.filter (fun c => f c == code))
  | [], acc => rfl
  | code :: rest, acc => by
    rw [scanCodes, scanCodes_eq f cs rest (cs.filter (fun c => f c == code))]
    cases hrest : rest.getLast? with
    | none =>
      have hnil : rest = [] := List.getLast?_eq_none_iff.mp hrest
      subst hnil
      simp
    | some code2 =>
      have hcons : (code :: rest).getLast? = some code2 := by
        cases rest with
        | nil => simp at hrest
        | cons b t => rw [List.getLast?_cons_cons]; exact hrest
      simp [hcons, hrest]

theorem mem_dedupAux (x : String) :
    ∀ (l seen : List String), x ∈ dedupAux seen l ↔ x ∈ l ∧ x ∉ seen
  | [], seen => by simp [dedupAux]
  | c :: rest, seen => by
    by_cases hc : seen.contains c
    · rw [dedupAux, if_pos hc, mem_dedupAux x rest seen]
      have hcmem : c ∈ seen := by simpa using hc
      constructor
      · rintro ⟨h1, h2⟩
        exact ⟨List.mem_cons_of_mem _ h1, h2⟩
      · rintro ⟨h1, h2⟩
        rcases List.mem_cons.mp h1 with rfl | h1
        · exact absurd hcmem h2
        · exact ⟨h1, h2⟩
    · rw [dedupAux, if_neg hc]
      have hcmem : c ∉ seen := by simpa using hc
      constructor
      · intro hx
        rcases List.mem_cons.mp hx with rfl | hx
        · exact ⟨List.mem_cons_self _ _, hcmem⟩
        · rw [mem_dedupAux x rest (c :: seen)] at hx
          obtain ⟨h1, h2⟩ := hx
          exact ⟨List.mem_cons_of_mem _ h1, fun hs => h2 (List.mem_cons_of_mem _ hs)⟩
      · rintro ⟨h1, h2⟩
        rcases List.mem_cons.mp h1 with rfl | h1
        · exact List.mem_cons_self _ _
        · by_cases hxc : x = c
          · subst hxc
            exact List.mem_cons_self _ _
          · refine List.mem_cons_of_mem _ ?_
            rw [mem_dedupAux x rest (c :: seen)]
            exact ⟨h1, fun hs => (List.mem_cons.mp hs).elim hxc h2⟩

theorem dedupAux_eq_nil :
    ∀ (l seen : List String), dedupAux seen l = [] ↔ ∀ x ∈ l, x ∈ seen
  | [], seen => by simp [dedupAux]
  | c :: rest, seen => by
    by_cases hc : seen.contains c
    · rw [dedupAux, if_pos hc, dedupAux_eq_nil rest seen]
      have hcmem : c ∈ seen := by simpa using hc
      constructor
      · intro hAll x hx
        rcases List.mem_cons.mp hx with rfl | hx
        · exact hcmem
        · exact hAll x hx
      · intro hAll x hx
        exact hAll x (List.mem_cons_of_mem _ hx)
    · rw [dedupAux, if_neg hc]
      refine ⟨fun hAbs => absurd hAbs (List.cons_ne_nil _ _), fun hAll => ?_⟩
      exact absurd (hAll c (List.mem_cons_self _ _)) (by simpa using hc)

theorem mem_interList {x : String} {codes watch : List String} :
    x ∈ interList codes watch ↔ x ∈ codes ∧ watch.contains x := by
  unfold interList
  rw [mem_dedupAux]
  simp [List.mem_filter]

theorem interList_eq_nil {codes watch : List String} :
    interList codes watch = [] ↔ ∀ x ∈ codes, ¬ (watch.contains x = true) := by
  unfold interList
  rw [dedupAux_eq_nil]
  simp [List.mem_filter]

/-- When the FIPS intersection is non-empty, the matcher returns the record
enriched with the head of the county filter for the last FIPS code scanned. -/
theorem matchOne_fips_head (counties : List County) (uw fw : List String) (a : Alert)
    (code : String) (c : County)
    (hlast : (interList (alertFipsCodes a) fw).getLast? = some code)
    (hhead : (counties.filter (fun x => x.fips == code)).head? = some c) :
    matchOne counties uw fw a = some { alert := a, county := c.name, state := c.state } := by
  obtain ⟨tl, htl⟩ : ∃ tl, counties.filter (fun x => x.fips == code) = c :: tl := by
    cases hF : counties.filter (fun x => x.fips == code) with
    | nil => rw [hF] at hhead; simp at hhead
    | cons c0 t =>
      rw [hF] at hhead
      simp only [List.head?_cons, Option.some.injEq] at hhead
      exact ⟨t, by rw [hhead]⟩
  unfold matchOne matchCounties
  simp only [scanCodes_eq, hlast, Option.elim]
  simp [htl]

/-- When the FIPS intersection is empty, the UGC scan's result survives:
the matcher returns the head of the county filter for the last UGC code. -/
theorem matchOne_ugc_head (counties : List County) (uw fw : List String) (a : Alert)
    (code : String) (c : County)
    (hfm : interList (alertFipsCodes a) fw = [])
    (hlast : (interList (alertUgcCodes a) uw).getLast? = some code)
    (hhead : (counties.filter (fun x => x.ugc == code)).head? = some c) :
    matchOne counties uw fw a = some { alert := a, county := c.name, state := c.state } := by
  obtain ⟨tl, htl⟩ : ∃ tl, counties.filter (fun x => x.ugc == code) = c :: tl := by
    cases hF : counties.filter (fun x => x.ugc == code) with
    | nil => rw [hF] at hhead; simp at hhead
    | cons c0 t =>
      rw [hF] at hhead
      simp only [List.head?_cons, Option.some.injEq] at hhead
      exact ⟨t, by rw [hhead]⟩
  unfold matchOne matchCounties
  simp [hfm, scanCodes_eq, hlast, htl]

/-- With the watch lists derived from the catalog (as the main script
builds them), a code surviving the intersection is carried by at least
one county, so its filter is non-empty. -/
theorem filter_ne_nil_of_interList_mem {codes : List String} {counties : List County}
    (f : County → String) {code : String}
    (hmem : code ∈ interList codes (counties.map f)) :
    counties.filter (fun x => f x == code) ≠ [] := by
  obtain ⟨-, hcont⟩ := mem_interList.mp hmem
  have : code ∈ counties.map f := by simpa using hcont
  obtain ⟨c, hc, hcode⟩ := List.mem_map.mp this
  intro hnil
  rw [List.filter_eq_nil_iff] at hnil
  exact hnil c hc (by simp [hcode])

/-- Claim C3: the matching pass intersects the record's UGC and FIPS codes
with the watched codes; the result is the last region found scanning the
UGC intersection, overwritten by the last region found scanning the FIPS
intersection (FIPS wins when both kinds match), and the record is excluded
exactly when no code of either list matches any configured region.  Watch
lists are the ones the main script derives from the county catalog, and
"last" refers to the model's determinized scan order of the Python set. -/
theorem c3_matcher_last_wins (counties : List County) (a : Alert) :
    (matchOne counties (counties.map County.ugc) (counties.map County.fips) a = none ↔
      (∀ code ∈ alertUgcCodes a, ∀ c ∈ counties, c.ugc ≠ code) ∧
      (∀ code ∈ alertFipsCodes a, ∀ c ∈ counties, c.fips ≠ code)) ∧
    (∀ code c,
      (interList (alertFipsCodes a) (counties.map County.fips)).getLast? = some code →
      (counties.filter (fun x => x.fips == code)).head? = some c →
      matchOne counties (counties.map County.ugc) (counties.map County.fips) a
        = some { alert := a, county := c.name, state := c.state }) ∧
    (∀ code c,
      interList (alertFipsCodes a) (counties.map County.fips) = [] →
      (interList (alertUgcCodes a) (counties.map County.ugc)).getLast? = some code →
      (counties.filter (fun x => x.ugc == code)).head? = some c →
      matchOne counties (counties.map County.ugc) (counties.map County.fips) a
        = some { alert := a, county := c.name, state := c.state }) := by
  refine ⟨?_, ?_, ?_⟩
  · cases hfm : (interList (alertFipsCodes a) (counties.map County.fips)).getLast? with
    | some code =>
      have hcode : code ∈ interList (alertFipsCodes a) (counties.map County.fips) :=
        List.mem_of_mem_getLast? (by simp [hfm])
      have hne := filter_ne_nil_of_interList_mem County.fips hcode
      obtain ⟨c0, tl, htl⟩ : ∃ c0 tl, counties.filter (fun x => x.fips == code) = c0 :: tl := by
        cases hF : counties.filter (fun x => x.fips == code) with
        | nil => exact absurd hF hne
        | cons c0 t => exact ⟨c0, t, rfl⟩
      have hsome : matchOne counties (counties.map County.ugc) (counties.map County.fips) a
          = some { alert := a, county := c0.name, state := c0.state } :=
        matchOne_fips_head counties _ _ a code c0 hfm (by rw [htl]; rfl)
      refine iff_of_false (by simp [hsome]) ?_
      rintro ⟨-, hforall⟩
      obtain ⟨hmemc, hcont⟩ := mem_interList.mp hcode
      have : code ∈ counties.map County.fips := by simpa using hcont
      obtain ⟨c, hc, hcfips⟩ := List.mem_map.mp this
      exact hforall code hmemc c hc hcfips
    | none =>
      have hfmnil : interList (alertFipsCodes a) (counties.map County.fips) = [] :=
        List.getLast?_eq_none_iff.mp hfm
      cases hum : (interList (alertUgcCodes a) (counties.map County.ugc)).getLast? with
      | some code =>
        have hcode : code ∈ interList (alertUgcCodes a) (counties.map County.ugc) :=
          List.mem_of_mem_getLast? (by simp [hum])
        have hne := filter_ne_nil_of_interList_mem County.ugc hcode
        obtain ⟨c0, tl, htl⟩ : ∃ c0 tl, counties.filter (fun x => x.ugc == code) = c0 :: tl := by
          cases hF : counties.filter (fun x => x.ugc == code) with
          | nil => exact absurd hF hne
          | cons c0 t => exact ⟨c0, t, rfl⟩
        have hsome : matchOne counties (counties.map County.ugc) (counties.map County.fips) a
            = some { alert := a, county := c0.name, state := c0.state } :=
          matchOne_ugc_head counties _ _ a code c0 hfmnil hum (by rw [htl]; rfl)
        refine iff_of_false (by simp [hsome]) ?_
        rintro ⟨hforall, -⟩
        obtain ⟨hmemc, hcont⟩ := mem_interList.mp hcode
        have : code ∈ counties.map County.ugc := by simpa using hcont
        obtain ⟨c, hc, hcugc⟩ := List.mem_map.mp this
        exact hforall code hmemc c hc hcugc
      | none =>
        have humnil : interList (alertUgcCodes a) (counties.map County.ugc) = [] :=
          List.getLast?_eq_none_iff.mp hum
        have hnone : matchOne counties (counties.map County.ugc) (counties.map County.fips) a
            = none := by
          unfold matchOne matchCounties
          simp only [humnil, hfmnil, scanCodes_eq, List.getLast?, Option.elim]
        refine iff_of_true hnone ⟨?_, ?_⟩
        · intro code hcode c hc hEq
          have : code ∈ interList (alertUgcCodes a) (counties.map County.ugc) := by
            rw [mem_interList]
            exact ⟨hcode, by simp; exact ⟨c, hc, hEq⟩⟩
          rw [humnil] at this
          simp at this
        · intro code hcode c hc hEq
          have : code ∈ interList (alertFipsCodes a) (counties.map County.fips) := by
            rw [mem_interList]
            exact ⟨hcode, by simp; exact ⟨c, hc, hEq⟩⟩
          rw [hfmnil] at this
          simp at this
  · intro code c hlast hhead
    exact matchOne_fips_head counties _ _ a code c hlast hhead
  · intro code c hfm hlast hhead
    exact matchOne_ugc_head counties _ _ a code c hfm hlast hhead

/-- Witness for C3: the Arapahoe catalog matches the `COZ039` record
through the UGC branch of the theorem. -/
theorem c3_matcher_last_wins_witness :
    matchOne [arapahoe] ([arapahoe].map County.ugc) ([arapahoe].map County.fips) wAlertUgc
      = some { alert := wAlertUgc, county := "Arapahoe", state := "CO" } :=
  (c3_matcher_last_wins [arapahoe] wAlertUgc).2.2 "COZ039" arapahoe
    (by decide) (by decide) (by decide)

/-- Claim C10: (i) when the winning code (last of the FIPS intersection)
is carried by several catalog entries, the matched region is the first
such entry in catalog order (`find?`); (ii) an empty FIPS intersection
never clears a region already found via the UGC intersection. -/
theorem c10_tiebreak_first_in_catalog (counties : List County) (uw fw : List String)
    (a : Alert) :
    (∀ code c,
      (interList (alertFipsCodes a) fw).getLast? = some code →
      2 ≤ (counties.filter (fun x => x.fips == code)).length →
      counties.find? (fun x => x.fips == code) = some c →
      matchOne counties uw fw a = some { alert := a, county := c.name, state := c.state }) ∧
    (∀ code c,
      interList (alertFipsCodes a) fw = [] →
      (interList (alertUgcCodes a) uw).getLast? = some code →
      counties.find? (fun x => x.ugc == code) = some c →
      matchOne counties uw fw a = some { alert := a, county := c.name, state := c.state }) := by
  constructor
  · intro code c hlast hlen hfindc
    rw [find?_eq_head?_filter] at hfindc
    exact matchOne_fips_head counties uw fw a code c hlast hfindc
  · intro code c hfm hlast hfindc
    rw [find?_eq_head?_filter] at hfindc
    exact matchOne_ugc_head counties uw fw a code c hfm hlast hfindc

/-- Witness for C10: with two counties carrying the winning FIPS code, the
first in catalog order is matched. -/
theorem c10_tiebreak_first_in_catalog_witness :
    matchOne [countyA, countyB] [] ["008001"] wAlertFips
      = some { alert := wAlertFips, county := "Alpha", state := "AA" } :=
  (c10_tiebreak_first_in_catalog [countyA, countyB] [] ["008001"] wAlertFips).1
    "008001" countyA (by decide) (by decide) (by decide)

/-! ### Expiration pruning (claim C4) -/

/-- Counterexample to C4: at current time 100000 the record expired at
epoch 50000 (strictly less than the current time) survives the non-purge
prelude, because the code deletes only rows with
`expires_utc_ts < now - 86400`, not `expires_utc_ts < now`. -/
theorem c4_counterexample :
    staleAlert.expires_utc_ts < 100000 ∧
    mainPrelude false 100000 [staleAlert] = [staleAlert] := by
  exact ⟨by decide, by decide⟩

/-- Claim C4 (amended): at the start of a non-purge pass the code deletes
exactly the records whose expiry epoch is strictly less than the current
time minus one day (86400 seconds); every record whose expiry epoch is at
or after that cutoff is kept untouched, for all values of the current
time.  The `--purge` branch instead deletes everything. -/
theorem c4_prune_cutoff_amended (now : Int) (repo : List Alert) (a : Alert) :
    (a ∈ mainPrelude false now repo ↔ a ∈ repo ∧ ¬(a.expires_utc_ts < now - 86400)) ∧
    (prunePass now repo).2
      = (repo.filter (fun x => x.expires_utc_ts < now - 86400)).length ∧
    mainPrelude true now repo = [] := by
  refine ⟨?_, rfl, rfl⟩
  unfold mainPrelude prunePass purgeExpiredCutoff
  simp [List.mem_filter]

/-- Witness for C4 (amended) at a concrete input: the stale record is
kept because its expiry is within the one-day grace window. -/
theorem c4_prune_cutoff_amended_witness :
    (staleAlert ∈ mainPrelude false 100000 [staleAlert] ↔
      staleAlert ∈ [staleAlert] ∧ ¬(staleAlert.expires_utc_ts < 100000 - 86400)) ∧
    (prunePass 100000 [staleAlert]).2
      = ([staleAlert].filter (fun x => x.expires_utc_ts < 100000 - 86400)).length ∧
    mainPrelude true 100000 [staleAlert] = [] :=
  c4_prune_cutoff_amended 100000 [staleAlert] staleAlert


/-! ### Malformed entries (claim C5) -/

/-- Counterexample to C5: a feed whose first entry lacks its id, followed
by a well-formed entry.  The claim predicts the malformed entry is skipped,
a skipped-count incremented, and the remaining entry processed; instead the
pass aborts at the malformed entry: nothing is inserted, the well-formed
entry is never reached, and no skipped-count exists. -/
theorem c5_counterexample :
    (fetch (fun s => s) 1 [malformedEntry, sampleEntry] []).repo = [] ∧
    (fetch (fun s => s) 1 [malformedEntry, sampleEntry] []).insert_count = 0 ∧
    (fetch (fun s => s) 1 [malformedEntry, sampleEntry] []).total = 1 ∧
    (fetch (fun s => s) 1 [malformedEntry, sampleEntry] []).error.isSome = true := by
  exact ⟨by decide, by decide, by decide, by decide⟩

/-- Claim C5 (amended): an entry lacking a required field (its id or its
expires timestamp) makes the ingestion pass abort at that entry with the
exception recorded: the repository is left as it stood, the remaining
entries are not processed, and only the aborting entry is counted. -/
theorem c5_malformed_entry_aborts (h : String → String) (ts : Nat) (bad : Entry)
    (rest : List Entry) (repo : List Alert)
    (hbad : bad.id = none ∨ bad.expires = none) :
    fetch h ts (bad :: rest) repo =
      { total := 1, insert_count := 0, existing_count := 0, repo := repo,
        error := some "AttributeError: required entry field missing" } := by
  rcases hbad with hbad | hbad
  · cases hexp : bad.expires <;> simp [fetch, hbad, hexp]
  · cases hid : bad.id <;> simp [fetch, hbad, hid]

/-- Witness for C5 (amended) at a concrete input. -/
theorem c5_malformed_entry_aborts_witness :
    fetch (fun s => s) 7 [malformedEntry] [] =
      { total := 1, insert_count := 0, existing_count := 0, repo := [],
        error := some "AttributeError: required entry field missing" } :=
  c5_malformed_entry_aborts (fun s => s) 7 malformedEntry [] [] (Or.inl rfl)

/-! ### Geocode parsing claims (claim C6) -/

/-- Counterexample to C6: on a value text containing a tab, the code's
`split(' ')` keeps the tab inside a single code, while the claimed
whitespace-separated split yields two codes. -/
theorem c6_counterexample :
    (parseGeocode (some [{ valueName := "FIPS6", value := some "A\tB" }])).1 = ["A\tB"] ∧
    specWhitespaceSplit "A\tB" = ["A", "B"] ∧
    (["A\tB"] : List String) ≠ ["A", "B"] := by
  exact ⟨by decide, by decide, by decide⟩

/-- The geocode loop computes, for each recognized kind, the single-space
split of the last value present for that kind, or the starting accumulator
when no such value occurs. -/
theorem geoLoop_eq :
    ∀ (pairs : List GeoPair) (fipsAcc ugcAcc : List String),
      geoLoop pairs fipsAcc ugcAcc =
        ((lastValueFor "FIPS6" pairs).elim fipsAcc (fun t => pySplitChar ' ' t),
         (lastValueFor "UGC" pairs).elim ugcAcc (fun t => pySplitChar ' ' t))
  | [], fipsAcc, ugcAcc => rfl
  | p :: rest, fipsAcc, ugcAcc => by
    by_cases hF : p.valueName = "FIPS6"
    · cases hv : p.value <;>
        cases hrest : lastValueFor "FIPS6" rest <;>
          cases hrestU : lastValueFor "UGC" rest <;>
            simp [geoLoop, lastValueFor, hF, hv, hrest, hrestU, geoLoop_eq rest,
              show (p.valueName == "UGC") = false by simp [hF]]
    · by_cases hU : p.valueName = "UGC"
      · cases hv : p.value <;>
          cases hrest : lastValueFor "FIPS6" rest <;>
            cases hrestU : lastValueFor "UGC" rest <;>
              simp [geoLoop, lastValueFor, hU, hv, hrest, hrestU, geoLoop_eq rest,
                show (p.valueName == "FIPS6") = false by simp [hF]]
      · cases hrest : lastValueFor "FIPS6" rest <;>
          cases hrestU : lastValueFor "UGC" rest <;>
            simp [geoLoop, lastValueFor, hrest, hrestU, geoLoop_eq rest,
              show (p.valueName == "FIPS6") = false by simp [hF],
              show (p.valueName == "UGC") = false by simp [hU]]

/-- Claim C6 (amended): geocode extraction is total: a missing geocode
block, a missing value element, or a value element without text yields
empty sequences for both kinds rather than an error; otherwise each
recognized valueName (`FIPS6`, `UGC`) sets its sequence to the
single-space split (`str.split(' ')`) of the last value present for that
kind, and pairs with any other valueName are ignored. -/
theorem c6_geocode_total_amended (g : Option (List GeoPair)) :
    (parseGeocode g =
      match g with
      | none => ([], [])
      | some pairs =>
        ((lastValueFor "FIPS6" pairs).elim [] (fun t => pySplitChar ' ' t),
         (lastValueFor "UGC" pairs).elim [] (fun t => pySplitChar ' ' t))) ∧
    (∀ p pairs, p.valueName ≠ "FIPS6" → p.valueName ≠ "UGC" →
      parseGeocode (some (p :: pairs)) = parseGeocode (some pairs)) := by
  constructor
  · cases g with
    | none => rfl
    | some pairs => exact geoLoop_eq pairs [] []
  · intro p pairs hF hU
    show geoLoop (p :: pairs) [] [] = geoLoop pairs [] []
    rw [geoLoop_eq, geoLoop_eq]
    simp only [lastValueFor]
    have hnotF : (p.valueName == "FIPS6") = false := by simp [hF]
    have hnotU : (p.valueName == "UGC") = false := by simp [hU]
    cases hrest : lastValueFor "FIPS6" pairs <;>
      cases hrestU : lastValueFor "UGC" pairs <;> simp [hrest, hrestU, hnotF, hnotU]

/-- Witness for C6 (amended): a pair with an unrecognized valueName is
ignored. -/
theorem c6_geocode_total_amended_witness :
    parseGeocode (some [{ valueName := "SAME", value := some "012345" },
        { valueName := "UGC", value := some "COZ039" }])
      = parseGeocode (some [{ valueName := "UGC", value := some "COZ039" }]) :=
  (c6_geocode_total_amended
      (some [{ valueName := "UGC", value := some "COZ039" }])).2
    { valueName := "SAME", value := some "012345" }
    [{ valueName := "UGC", value := some "COZ039" }] (by decide) (by decide)

/-! ### Keyword extraction (claim C7) -/

theorem foldl_append_filter (p : String → Bool) :
    ∀ (l acc : List String),
      l.foldl (fun acc item => if p item then acc ++ [item] else acc) acc
        = acc ++ l.filter p
  | [], acc => by simp
  | x :: rest, acc => by
    by_cases hp : p x
    · simp only [List.foldl_cons, if_pos hp, List.filter_cons_of_pos hp]
      rw [foldl_append_filter p rest (acc ++ [x])]
      simp
    · simp only [List.foldl_cons, if_neg hp, List.filter_cons_of_neg hp]
      exact foldl_append_filter p rest acc

/-- Claim C7: keyword extraction.  For either statement event type the
extracted keywords are exactly the vocabulary terms, in fixed vocabulary
order, whose upper-case form occurs as a substring of the upper-cased
summary; for any other event type the list is empty regardless of the
summary; and the statement summary `TORNADO WARNING ISSUED FOR AREA`
yields exactly `["Tornado"]`. -/
theorem c7_keyword_extraction (event summary : String) :
    (statementEvents.contains event = true →
      subEvents event summary
        = keywordVocab.filter (fun item => strContains (upperStr summary) (upperStr item))) ∧
    (statementEvents.contains event = false → subEvents event summary = []) ∧
    subEvents "Special Weather Statement" "TORNADO WARNING ISSUED FOR AREA"
      = ["Tornado"] := by
  refine ⟨?_, ?_, by decide⟩
  · intro hev
    unfold subEvents
    rw [if_pos hev, foldl_append_filter]
    simp
  · intro hev
    unfold subEvents
    rw [if_neg (by simpa using hev)]

/-- Witness for C7 at concrete inputs: a statement summary containing
rain and hail, and a non-statement event with a keyword-laden summary. -/
theorem c7_keyword_extraction_witness :
    subEvents "Severe Weather Statement" "Heavy rain and hail expected"
      = keywordVocab.filter (fun item =>
          strContains (upperStr "Heavy rain and hail expected") (upperStr item)) ∧
    subEvents "Tornado Warning" "TORNADO" = [] :=
  ⟨(c7_keyword_extraction "Severe Weather Statement" "Heavy rain and hail expected").1
      (by decide),
   (c7_keyword_extraction "Tornado Warning" "TORNADO").2.1 (by decide)⟩

/-! ### Notification formatting (claim C9) -/

theorem intercalate_go_length (s : String) :
    ∀ (l : List String) (acc : String),
      acc.data.length ≤ (String.intercalate.go acc s l).data.length
  | [], _ => le_refl _
  | a :: as, acc => by
    have h1 := intercalate_go_length s as (acc ++ s ++ a)
    have h2 : (acc ++ s ++ a).data.length
        = acc.data.length + s.data.length + a.data.length := by
      simp [String.data_append]
      omega
    exact le_trans (by omega) h1

/-- Joining a non-empty list of non-empty words with `", "` is non-empty
(this is what makes Python's truthiness test on `details` equivalent to
the keyword list being non-empty). -/
theorem intercalate_comma_ne_empty {l : List String} (hne : l ≠ [])
    (hall : ∀ x ∈ l, x ≠ "") : String.intercalate ", " l ≠ "" := by
  cases l with
  | nil => exact absurd rfl hne
  | cons x rest =>
    intro hEq
    have hx : x ≠ "" := hall x (List.mem_cons_self _ _)
    have hxd : x.data ≠ [] := by
      intro hd
      apply hx
      cases x with
      | mk d =>
        cases hd
        rfl
    have hlen := intercalate_go_length ", " rest x
    have hgo : String.intercalate ", " (x :: rest) = String.intercalate.go x ", " rest := rfl
    rw [hgo] at hEq
    rw [hEq] at hlen
    have hx0 : x.data.length = 0 := by
      have hz : ("" : String).data.length = 0 := rfl
      omega
    exact hxd (List.length_eq_zero.mp hx0)

/-- Every extracted keyword is a vocabulary term. -/
theorem subEvents_subset_vocab (event summary : String) :
    ∀ x ∈ subEvents event summary, x ∈ keywordVocab := by
  intro x hx
  unfold subEvents at hx
  by_cases hev : statementEvents.contains event = true
  · rw [if_pos hev, foldl_append_filter, List.nil_append] at hx
    exact (List.mem_filter.mp hx).1
  · rw [if_neg hev] at hx
    simp at hx

theorem keywordVocab_words_ne_empty : ∀ x ∈ keywordVocab, x ≠ "" := by decide

/-- Claim C9: for a matched alert whose record was built from a feed
entry, the dispatcher title is the matched region's name, its state code
in parentheses, and the fixed suffix `Weather Alert`; the body is the
alert's original title — annotated (by tagging the word `issued` with the
joined keyword list) exactly when the extracted keyword list is non-empty
— followed by a parenthesized suffix made of the last five characters of
the identity digest. -/
theorem c9_notification_format (h : String → String) (ts : Nat) (e : Entry)
    (idText iso : String) (utcTs : Int) (m : MatchedAlert)
    (hm : m.alert = entryToAlert h ts e idText iso utcTs) :
    create_alert_title m = m.county ++ " (" ++ m.state ++ ") Weather Alert" ∧
    (subEvents e.event e.summary = [] →
      create_alert_message m = e.title ++ " (" ++ pyLastChars 5 (h idText) ++ ")") ∧
    (subEvents e.event e.summary ≠ [] →
      create_alert_message m
        = replaceStr e.title "issued"
            ("(" ++ String.intercalate ", " (subEvents e.event e.summary) ++ ") issued")
          ++ " (" ++ pyLastChars 5 (h idText) ++ ")") ∧
    (∃ pre, (h idText).data = pre ++ (pyLastChars 5 (h idText)).data) := by
  refine ⟨rfl, ?_, ?_, ?_⟩
  · intro h0
    unfold create_alert_message
    rw [hm]
    simp [entryToAlert, h0, String.intercalate]
  · intro h0
    have hd : String.intercalate ", " (subEvents e.event e.summary) ≠ "" :=
      intercalate_comma_ne_empty h0
        (fun x hx => keywordVocab_words_ne_empty x (subEvents_subset_vocab _ _ x hx))
    unfold create_alert_message
    rw [hm]
    simp only [entryToAlert]
    rw [if_pos hd]
  · refine ⟨(h idText).data.take ((h idText).data.length - 5), ?_⟩
    unfold pyLastChars
    simp [List.take_append_drop]

/-- Witness for C9: the annotated branch at a concrete statement entry. -/
theorem c9_notification_format_witness :
    create_alert_message
        { alert := entryToAlert (fun s => s) 1 stmtEntry
            "https://alerts.weather.gov/cap/stmt.1" "2015-06-01T00:00:00+00:00" 1433116800,
          county := "Arapahoe", state := "CO" }
      = replaceStr stmtEntry.title "issued"
          ("(" ++ String.intercalate ", " (subEvents stmtEntry.event stmtEntry.summary)
            ++ ") issued")
        ++ " (" ++ pyLastChars 5 ((fun s => s) "https://alerts.weather.gov/cap/stmt.1") ++ ")" :=
  (c9_notification_format (fun s => s) 1 stmtEntry "https://alerts.weather.gov/cap/stmt.1"
      "2015-06-01T00:00:00+00:00" 1433116800
      { alert := entryToAlert (fun s => s) 1 stmtEntry
          "https://alerts.weather.gov/cap/stmt.1" "2015-06-01T00:00:00+00:00" 1433116800,
        county := "Arapahoe", state := "CO" } rfl).2.2.1 (by decide)

/-! ### The spec's example scenario (claim C8) -/

/-- Ingesting two well-formed entries with distinct identities into an
empty repository inserts both. -/
theorem fetch_two_fresh (h : String → String) (ts : Nat) (e1 e2 : Entry)
    (i1 i2 : String) (x1 x2 : String × Int)
    (h1 : e1.id = some i1) (h2 : e2.id = some i2)
    (hx1 : e1.expires = some x1) (hx2 : e2.expires = some x2)
    (hne : (h i1 == h i2) = false) :
    fetch h ts [e1, e2] [] =
      { total := 2, insert_count := 2, existing_count := 0,
        repo := [entryToAlert h ts e1 i1 x1.1 x1.2, entryToAlert h ts e2 i2 x2.1 x2.2],
        error := none } := by
  simp [fetch, h1, h2, hx1, hx2, List.find?_cons, entryToAlert, hne]

/-- The single-county matcher resolves a record carrying exactly the UGC
code `COZ039` to Arapahoe/CO. -/
theorem matchOne_coz039 (a : Alert) (hu : a.ugc_codes = "COZ039")
    (hf : a.fips_codes = "") :
    matchOne [arapahoe] ([arapahoe].map County.ugc) ([arapahoe].map County.fips) a
      = some { alert := a, county := "Arapahoe", state := "CO" } := by
  apply matchOne_ugc_head _ _ _ _ "COZ039" arapahoe
  · have hfc : alertFipsCodes a = [] := by
      unfold alertFipsCodes
      rw [hf]
      decide
    rw [hfc]
    rfl
  · have huc : alertUgcCodes a = ["COZ039"] := by
      unfold alertUgcCodes
      rw [hu]
      decide
    rw [huc]
    decide
  · decide

/-- The single-county matcher drops a record carrying only the UGC code
`NEZ001`. -/
theorem matchOne_nez001 (a : Alert) (hu : a.ugc_codes = "NEZ001")
    (hf : a.fips_codes = "") :
    matchOne [arapahoe] ([arapahoe].map County.ugc) ([arapahoe].map County.fips) a
      = none := by
  have huc : alertUgcCodes a = ["NEZ001"] := by
    unfold alertUgcCodes
    rw [hu]
    decide
  have hfc : alertFipsCodes a = [] := by
    unfold alertFipsCodes
    rw [hf]
    decide
  have hi : interList ["NEZ001"] ([arapahoe].map County.ugc) = [] := by decide
  simp [matchOne, matchCounties, huc, hfc, hi, scanCodes, interList, dedupAux]

/-- Claim C8: the example scenario.  Against an empty repository, a first
pass over the two-entry feed counts total=2, inserted=2, existing=0, and
its run-scoped matching pass yields exactly one matched, dispatch-eligible
record, resolved to Arapahoe/CO; a second pass over the same feed counts
total=2, inserted=0, existing=2 and yields no matched records.  The digest
is any function keeping the two ids distinct. -/
theorem c8_example_scenario (h : String → String)
    (hids : h scenarioId1 ≠ h scenarioId2) :
    (fetch h 1 scenarioFeed []).total = 2 ∧
    (fetch h 1 scenarioFeed []).insert_count = 2 ∧
    (fetch h 1 scenarioFeed []).existing_count = 0 ∧
    ((check_new_alerts [arapahoe] ([arapahoe].map County.ugc) ([arapahoe].map County.fips) 1
        (fetch h 1 scenarioFeed []).repo).map
      (fun m => (m.county, m.state, dispatchEligible [] m)))
      = [("Arapahoe", "CO", true)] ∧
    (fetch h 2 scenarioFeed (fetch h 1 scenarioFeed []).repo).total = 2 ∧
    (fetch h 2 scenarioFeed (fetch h 1 scenarioFeed []).repo).insert_count = 0 ∧
    (fetch h 2 scenarioFeed (fetch h 1 scenarioFeed []).repo).existing_count = 2 ∧
    check_new_alerts [arapahoe] ([arapahoe].map County.ugc) ([arapahoe].map County.fips) 2
      (fetch h 2 scenarioFeed (fetch h 1 scenarioFeed []).repo).repo = [] := by
  have hbeq : (h scenarioId1 == h scenarioId2) = false := by
    simpa using hids
  have hfetch1 : fetch h 1 scenarioFeed [] =
      { total := 2, insert_count := 2, existing_count := 0,
        repo := [entryToAlert h 1 scenarioEntryMatch scenarioId1
                   "2015-06-01T00:00:00+00:00" 1433116800,
                 entryToAlert h 1 scenarioEntryOther scenarioId2
                   "2015-06-02T00:00:00+00:00" 1433203200],
        error := none } :=
    fetch_two_fresh h 1 scenarioEntryMatch scenarioEntryOther scenarioId1 scenarioId2
      ("2015-06-01T00:00:00+00:00", 1433116800) ("2015-06-02T00:00:00+00:00", 1433203200)
      rfl rfl rfl rfl hbeq
  have hrec1 : recordsForRun 1 (fetch h 1 scenarioFeed []).repo
      = [entryToAlert h 1 scenarioEntryMatch scenarioId1
           "2015-06-01T00:00:00+00:00" 1433116800,
         entryToAlert h 1 scenarioEntryOther scenarioId2
           "2015-06-02T00:00:00+00:00" 1433203200] := by
    rw [hfetch1]
    simp [recordsForRun, entryToAlert]
  have hm1 := matchOne_coz039
    (entryToAlert h 1 scenarioEntryMatch scenarioId1 "2015-06-01T00:00:00+00:00" 1433116800)
    rfl rfl
  have hm2 := matchOne_nez001
    (entryToAlert h 1 scenarioEntryOther scenarioId2 "2015-06-02T00:00:00+00:00" 1433203200)
    rfl rfl
  obtain ⟨r1, r2, r3, r4, r5⟩ := fetch_refetch h 1 2 scenarioFeed []
  refine ⟨by rw [hfetch1], by rw [hfetch1], by rw [hfetch1], ?_, ?_, ?_, ?_, ?_⟩
  · unfold check_new_alerts
    rw [hrec1]
    simp only [List.map_cons, List.map_nil] at hm1 hm2
    simp [List.filterMap_cons, hm1, hm2, dispatchEligible]
  · rw [r3, hfetch1]
  · exact r1
  · rw [r4, hfetch1]
    rfl
  · unfold check_new_alerts
    have hrec2 : recordsForRun 2 (fetch h 2 scenarioFeed (fetch h 1 scenarioFeed []).repo).repo
        = [] := by
      rw [r2, hfetch1]
      simp [recordsForRun, entryToAlert]
    rw [hrec2]
    rfl

/-- Witness for C8: the scenario run with the identity function as digest
(the two ids are distinct strings). -/
theorem c8_example_scenario_witness :
    (fetch (fun s => s) 1 scenarioFeed []).total = 2 ∧
    (fetch (fun s => s) 1 scenarioFeed []).insert_count = 2 ∧
    (fetch (fun s => s) 1 scenarioFeed []).existing_count = 0 ∧
    ((check_new_alerts [arapahoe] ([arapahoe].map County.ugc) ([arapahoe].map County.fips) 1
        (fetch (fun s => s) 1 scenarioFeed []).repo).map
      (fun m => (m.county, m.state, dispatchEligible [] m)))
      = [("Arapahoe", "CO", true)] ∧
    (fetch (fun s => s) 2 scenarioFeed (fetch (fun s => s) 1 scenarioFeed []).repo).total = 2 ∧
    (fetch (fun s => s) 2 scenarioFeed (fetch (fun s => s) 1 scenarioFeed []).repo).insert_count
      = 0 ∧
    (fetch (fun s => s) 2 scenarioFeed
        (fetch (fun s => s) 1 scenarioFeed []).repo).existing_count = 2 ∧
    check_new_alerts [arapahoe] ([arapahoe].map County.ugc) ([arapahoe].map County.fips) 2
      (fetch (fun s => s) 2 scenarioFeed (fetch (fun s => s) 1 scenarioFeed []).repo).repo
      = [] :=
  c8_example_scenario (fun s => s) (by decide)

end Noaa
